import Mathlib

/-!
Shallow embedding of the tunnel subcommand logic of cloudflared
(cmd/cloudflared/tunnel/subcommands.go) together with proofs about it:
connection aggregation, name and hostname validation, route construction,
output rendering, secret generation, credential persistence and the list
command's filter assembly.  Definitions are translated from the Go source;
library code that is not part of the repository slice (idna, path handling,
the CLI and tunnelstore packages, crypto/rand) is modelled from the spec and
marked as such.
-/

/-- A tunnel edge connection as reported by the directory service
(tunnelstore.Connection, modelled from the spec: point of presence name and
the pending-reconnect flag are the only fields the aggregation reads). -/
structure Connection where
  coloName : String
  isPendingReconnect : Bool
deriving DecidableEq

/-- Lexicographic comparison of character sequences by code point.  UTF-8
byte order coincides with code-point order, so this is the order Go's
sort.Strings uses on the encoded strings. -/
def charsLe : List Char → List Char → Bool
  | [], _ => true
  | _ :: _, [] => false
  | a :: as, b :: bs =>
    if a.toNat < b.toNat then true
    else if b.toNat < a.toNat then false
    else charsLe as bs

/-- String order used by sort.Strings, as a comparison on the characters. -/
def strLe (a b : String) : Bool := charsLe a.data b.data

/-- The sorting relation on strings: `strLe` read as a proposition. -/
def strLeProp (a b : String) : Prop := strLe a b = true

instance : DecidableRel strLeProp :=
  fun a b => inferInstanceAs (Decidable (strLe a b = true))

/-- Embeds fmtConnections (subcommands.go lines 229-252).  The Go map from
colo name to count is modelled by the list of distinct colo names of the
counted connections together with the count of each name; the names are then
sorted ascending, rendered "<count>x<name>" and joined with ", ". -/
def fmtConnections (connections : List Connection) (showRecentlyDisconnected : Bool) : String :=
  let counted := connections.filter fun c => !c.isPendingReconnect || showRecentlyDisconnected
  let coloNames := counted.map Connection.coloName
  let sortedColos := List.insertionSort strLeProp coloNames.dedup
  let output := sortedColos.map fun coloName =>
    toString (coloNames.count coloName) ++ "x" ++ coloName
  String.intercalate ", " output

/-- The specification's reading of the summary (spec 4.5): a count per point
of presence over the connections that are counted, the points of presence
with non-zero count sorted ascending, each rendered "<count>x<name>", joined
with ", ". -/
def specSummarize (connections : List Connection) (includeRecentlyDisconnected : Bool) : String :=
  let cnt : String → Nat := fun pop =>
    (connections.filter fun c =>
      c.coloName == pop && (!c.isPendingReconnect || includeRecentlyDisconnected)).length
  let pops := List.insertionSort strLeProp
    (((connections.map Connection.coloName).dedup).filter fun pop => cnt pop != 0)
  String.intercalate ", " (pops.map fun pop => toString (cnt pop) ++ "x" ++ pop)

/-- The first character class of the name pattern, [_a-zA-Z0-9]. -/
def isNameHeadChar (c : Char) : Bool :=
  c == '_' || ('a' ≤ c && c ≤ 'z') || ('A' ≤ c && c ≤ 'Z') || ('0' ≤ c && c ≤ '9')

/-- The remainder character class of the name pattern, [-_.a-zA-Z0-9]. -/
def isNameRestChar (c : Char) : Bool :=
  c == '-' || c == '_' || c == '.' ||
    ('a' ≤ c && c ≤ 'z') || ('A' ≤ c && c ≤ 'Z') || ('0' ≤ c && c ≤ '9')

/-- Embeds validateName (subcommands.go lines 443-447): a full match of the
anchored regular expression pattern with head class [_a-zA-Z0-9] and
remainder class [-_.a-zA-Z0-9]. -/
def validateName (s : String) : Bool :=
  match s.data with
  | [] => false
  | c :: cs => isNameHeadChar c && cs.all isNameRestChar

/-- Splitting a character sequence at a separator character, with the
semantics of Go's strings.Split for a one-character separator: the empty
sequence yields one empty piece, and each separator occurrence starts a new
piece. -/
def splitChar (sep : Char) : List Char → List (List Char)
  | [] => [[]]
  | c :: cs =>
    if c == sep then [] :: splitChar sep cs
    else
      match splitChar sep cs with
      | [] => [[c]]
      | l :: ls => (c :: l) :: ls

/-- Modelled from the spec: the strict internationalized-domain conversion
applied by validateHostname (golang.org/x/net/idna with ValidateLabels and
VerifyDNSLength; the library is not under src).  Labels are validated
individually — non-empty, at most 63 characters, no leading or trailing
hyphen — and the overall DNS length limit of 253 characters is enforced,
with the empty input rejected; any violation is a conversion error, never an
exception.  The modelled fragment treats its input as already ASCII, so a
successful conversion returns the input unchanged. -/
def idnaToASCII (s : String) : Except String String :=
  let labels := splitChar '.' s.data
  if s.data.length == 0 then Except.error "idna: empty input"
  else if 253 < s.data.length then Except.error "idna: DNS length limit exceeded"
  else if labels.any (fun l => l.length == 0 || 63 < l.length) then
    Except.error "idna: bad label length"
  else if labels.any (fun l => l.head? == some '-' || l.getLast? == some '-') then
    Except.error "idna: bad label hyphen"
  else Except.ok s

/-- Embeds validateHostname (subcommands.go lines 449-457): convert the input
to its ASCII form under the strict profile and require validateName on the
result; a conversion error means the hostname is invalid. -/
def validateHostname (s : String) : Bool :=
  match idnaToASCII s with
  | Except.ok puny => validateName puny
  | Except.error _ => false

/-- A 304-character name: every character is valid name material, but the
string exceeds the 253-character DNS length limit. -/
def longName304 : String := String.mk (List.replicate 304 'a')

/-- Routing intents (tunnelstore.NewDNSRoute / NewLBRoute; the tunnelstore
package is not under src, modelled from the spec as a closed sum). -/
inductive Route where
  | dns (userHostname : String)
  | lb (lbName lbPool : String)
deriving DecidableEq

/-- The two error shapes the route constructors produce: a usage error
(cliutil.UsageError) or a validation error naming the offending token
(errors.Errorf). -/
inductive CmdError where
  | usage (msg : String)
  | invalid (msg : String)
deriving DecidableEq

/-- Modelled from the spec: cli.Args().Get(i) (urfave/cli not under src)
returns the i-th positional argument, or the empty string out of range. -/
def argsGet (args : List String) (i : Nat) : String := args.getD i ""

/-- Embeds dnsRouteFromArg (subcommands.go lines 400-415): exactly three
arguments, the third being a non-empty string accepted by validateHostname. -/
def dnsRouteFromArg (args : List String) : Except CmdError Route :=
  if args.length ≠ 3 then
    Except.error (CmdError.usage ("Expected 3 arguments, got " ++ toString args.length))
  else
    let userHostname := argsGet args 2
    if userHostname = "" then
      Except.error (CmdError.usage "The third argument should be the hostname")
    else if !validateHostname userHostname then
      Except.error (CmdError.invalid (userHostname ++ " is not a valid hostname"))
    else Except.ok (Route.dns userHostname)

/-- Embeds lbRouteFromArg (subcommands.go lines 417-441): exactly four
arguments; the third (load balancer name) is checked with validateHostname
and the fourth (pool name) with validateName. -/
def lbRouteFromArg (args : List String) : Except CmdError Route :=
  if args.length ≠ 4 then
    Except.error (CmdError.usage ("Expected 4 arguments, got " ++ toString args.length))
  else
    let lbName := argsGet args 2
    if lbName = "" then
      Except.error (CmdError.usage "The third argument should be the load balancer name")
    else if !validateHostname lbName then
      Except.error (CmdError.invalid (lbName ++ " is not a valid load balancer name"))
    else
      let lbPool := argsGet args 3
      if lbPool = "" then
        Except.error (CmdError.usage "The fourth argument should be the pool name")
      else if !validateName lbPool then
        Except.error (CmdError.invalid (lbPool ++ " is not a valid pool name"))
      else Except.ok (Route.lb lbName lbPool)

deriving instance DecidableEq for Except

/-- Discriminates the validation-error outcome (errors.Errorf) from the other
outcomes of a route constructor. -/
def isValidationErr : Except CmdError Route → Bool
  | Except.error (CmdError.invalid _) => true
  | _ => false

/-- The output an encoder run would produce (the encoders themselves are
external collaborators): the selected serialization together with its
configuration — the json encoder is configured by SetIndent with prefix ""
and indent "  ". -/
inductive RenderedOutput (α : Type) where
  | json (pre indent : String) (value : α)
  | yaml (value : α)
deriving DecidableEq

/-- Embeds renderOutput (subcommands.go lines 282-293): switch on the exact
format string; "json" uses an encoder with SetIndent("", "  "), "yaml" the
yaml encoder, anything else is the unknown-format error. -/
def renderOutput {α : Type} (format : String) (v : α) : Except String (RenderedOutput α) :=
  if format = "json" then Except.ok (RenderedOutput.json "" "  " v)
  else if format = "yaml" then Except.ok (RenderedOutput.yaml v)
  else Except.error ("Unknown output format \x27" ++ format ++ "\x27")

/-- Modelled from the spec: the cryptographically secure random source behind
crypto/rand.Read (standard library, not under src): either it supplies a
byte stream, or it fails and the buffer is left as allocated. -/
structure RandSource where
  byteAt : Nat → Nat
  failure : Option String

/-- Modelled from the spec: rand.Read fills the given buffer from the secure
source and reports the source's error. -/
def randRead (src : RandSource) (buf : List Nat) : List Nat × Option String :=
  match src.failure with
  | some e => (buf, some e)
  | none => ((List.range buf.length).map src.byteAt, none)

/-- Embeds generateTunnelSecret (subcommands.go lines 96-101): allocate a
32-byte buffer, fill it from the secure source, and return the buffer
together with the source's error. -/
def generateTunnelSecret (src : RandSource) : List Nat × Option String :=
  let randomBytes := List.replicate 32 0
  randRead src randomBytes

/-- Modelled from the spec: lexical path cleaning applied when deriving the
credential file path (Go path/filepath.Clean; the standard library is not
under src): empty and "." segments are dropped and a ".." segment consumes
the preceding segment (at the root it vanishes); the result keeps the
absolute or relative shape of the input, with "." for an empty relative
result. -/
def filepathClean (path : String) : String :=
  let isAbs := path.data.head? == some '/'
  let segs := (splitChar '/' path.data).filter fun seg => seg ≠ [] && seg ≠ ['.']
  let stack := segs.foldl
    (fun stack seg =>
      if seg = ['.', '.'] then
        match stack with
        | [] => if isAbs then [] else [seg]
        | top :: rest => if top = ['.', '.'] then seg :: stack else rest
      else seg :: stack)
    ([] : List (List Char))
  let body := String.intercalate "/" (stack.reverse.map fun seg => String.mk seg)
  if isAbs then "/" ++ body
  else if body = "" then "." else body

/-- Modelled from the spec: the containing directory of a path (Go
filepath.Dir; the standard library is not under src): everything up to and
including the final separator, cleaned; "." when there is no separator. -/
def filepathDir (path : String) : String :=
  let restRev := path.data.reverse.dropWhile fun c => c != '/'
  filepathClean (String.mk restRev.reverse)

/-- Modelled from the spec: home-directory shorthand expansion (the
go-homedir library is not under src): "~" alone is the home directory, a
path starting "~/" has the tilde replaced by the home directory, any other
path starting "~" is an error, and a path without the shorthand is returned
unchanged. -/
def homedirExpand (home path : String) : Except String String :=
  match path.data with
  | '~' :: rest =>
    match rest with
    | [] => Except.ok home
    | '/' :: _ => Except.ok (home ++ String.mk rest)
    | _ => Except.error "cannot expand user-specific home dir"
  | _ => Except.ok path

/-- Embeds tunnelFilePath (subcommands.go lines 118-122):
"<directory>/<tunnelID>.json", cleaned and home-expanded.  The home
directory is a parameter (the source reads it from the environment). -/
def tunnelFilePath (tunnelID directory home : String) : Except String String :=
  let fileName := tunnelID ++ ".json"
  let filePath := filepathClean (directory ++ "/" ++ fileName)
  homedirExpand home filePath

/-- The credential body json.Marshal serializes (tunnelrpc/pogs.TunnelAuth
is not under src; modelled from the spec: account tag and tunnel secret). -/
structure TunnelAuth where
  accountTag : String
  tunnelSecret : List Nat
deriving DecidableEq

/-- The write request handed to ioutil.WriteFile: target path, marshalled
body and permission bits. -/
structure FileWrite where
  path : String
  auth : TunnelAuth
  perm : Nat
deriving DecidableEq

/-- Embeds writeTunnelCredentials (subcommands.go lines 124-140): derive the
directory containing the origin certificate, place "<tunnelID>.json" inside
it, marshal the credentials, and request the file write with the permission
argument 400 — the decimal literal the source passes to ioutil.WriteFile.
json.Marshal of this shape cannot fail and is modelled as the structured
value; the I/O itself is outside the model, so the function returns the
write request it would issue. -/
def writeTunnelCredentials (tunnelID accountID originCertPath : String)
    (tunnelSecret : List Nat) (home : String) : Except String FileWrite :=
  let originCertDir := filepathDir originCertPath
  match tunnelFilePath tunnelID originCertDir home with
  | Except.error e => Except.error e
  | Except.ok filePath =>
    Except.ok
      { path := filePath
        auth := { accountTag := accountID, tunnelSecret := tunnelSecret }
        perm := 400 }

/-- One predicate of the tunnelstore filter (the tunnelstore package is not
under src; modelled from the spec: a builder whose operations each append
one constraint to an ordered collection). -/
inductive FilterConstraint where
  | noDeleted : FilterConstraint
  | byName (name : String) : FilterConstraint
  | byExistedAt (timestamp : String) : FilterConstraint
  | byTunnelID (tunnelID : String) : FilterConstraint
deriving DecidableEq

/-- Modelled from the spec: flag lookup on the parsed CLI invocation
(urfave/cli is not under src).  Values are read by flag name; reading a name
that was never set — in particular a name that is not a defined flag —
yields the zero value (false, "", or no timestamp).  The defined timestamp
flag of the list command is "when" (subcommands.go lines 44-50 and 156). -/
structure CliContext where
  bools : List (String × Bool)
  strs : List (String × String)
  timestamps : List (String × String)
deriving DecidableEq

def cliBool (c : CliContext) (name : String) : Bool :=
  (c.bools.lookup name).getD false

def cliString (c : CliContext) (name : String) : String :=
  (c.strs.lookup name).getD ""

def cliTimestamp (c : CliContext) (name : String) : Option String :=
  c.timestamps.lookup name

/-- The hexadecimal digit class. -/
def isHexChar (c : Char) : Bool :=
  ('0' ≤ c && c ≤ '9') || ('a' ≤ c && c ≤ 'f') || ('A' ≤ c && c ≤ 'F')

/-- Modelled from the spec: uuid.Parse (the uuid library is not under src)
accepts the canonical 8-4-4-4-12 hexadecimal form. -/
def uuidParse (s : String) : Option String :=
  let parts := splitChar '-' s.data
  if (parts.map List.length) = [8, 4, 4, 4, 12] && parts.all (fun p => p.all isHexChar)
  then some s else none

/-- Embeds the filter-building part of listCommand (subcommands.go lines
166-182).  Note the timestamp lookup: the source reads the flag named
"time", while the timestamp flag defined for the list command is named
"when". -/
def listBuildFilter (c : CliContext) : Except String (List FilterConstraint) :=
  let f0 : List FilterConstraint := []
  let f1 := if !cliBool c "show-deleted" then f0 ++ [FilterConstraint.noDeleted] else f0
  let f2 :=
    if cliString c "name" ≠ "" then f1 ++ [FilterConstraint.byName (cliString c "name")]
    else f1
  let f3 :=
    match cliTimestamp c "time" with
    | some existedAt => f2 ++ [FilterConstraint.byExistedAt existedAt]
    | none => f2
  if cliString c "id" ≠ "" then
    match uuidParse (cliString c "id") with
    | some tunnelID => Except.ok (f3 ++ [FilterConstraint.byTunnelID tunnelID])
    | none => Except.error (cliString c "id" ++ " is not a valid tunnel ID")
  else Except.ok f3

theorem charsLe_total (x : List Char) : ∀ y, charsLe x y = true ∨ charsLe y x = true := by
  induction x with
  | nil => intro y; left; rfl
  | cons a as ih =>
    intro y
    cases y with
    | nil => right; rfl
    | cons b bs =>
      simp only [charsLe]
      rcases Nat.lt_trichotomy a.toNat b.toNat with h | h | h
      · left; simp [h]
      · have h1 : ¬ a.toNat < b.toNat := by omega
        have h2 : ¬ b.toNat < a.toNat := by omega
        simpa [h1, h2] using ih bs
      · right; simp [h, Nat.lt_asymm h]

theorem charsLe_trans (x : List Char) :
    ∀ y z, charsLe x y = true → charsLe y z = true → charsLe x z = true := by
  induction x with
  | nil => intro y z _ _; rfl
  | cons a as ih =>
    intro y z hxy hyz
    cases y with
    | nil => simp [charsLe] at hxy
    | cons b bs =>
      cases z with
      | nil => simp [charsLe] at hyz
      | cons c cs =>
        simp only [charsLe] at hxy hyz ⊢
        rcases Nat.lt_trichotomy a.toNat b.toNat with h1 | h1 | h1
        · rcases Nat.lt_trichotomy b.toNat c.toNat with h2 | h2 | h2
          · simp [show a.toNat < c.toNat by omega]
          · simp [show a.toNat < c.toNat by omega]
          · simp [show ¬ b.toNat < c.toNat by omega, h2] at hyz
        · rcases Nat.lt_trichotomy b.toNat c.toNat with h2 | h2 | h2
          · simp [show a.toNat < c.toNat by omega]
          · have hxy2 : charsLe as bs = true := by
              simpa [show ¬ a.toNat < b.toNat by omega,
                show ¬ b.toNat < a.toNat by omega] using hxy
            have hyz2 : charsLe bs cs = true := by
              simpa [show ¬ b.toNat < c.toNat by omega,
                show ¬ c.toNat < b.toNat by omega] using hyz
            simpa [show ¬ a.toNat < c.toNat by omega,
              show ¬ c.toNat < a.toNat by omega] using ih bs cs hxy2 hyz2
          · simp [show ¬ b.toNat < c.toNat by omega, h2] at hyz
        · simp [show ¬ a.toNat < b.toNat by omega, h1] at hxy

theorem charsLe_antisymm (x : List Char) :
    ∀ y, charsLe x y = true → charsLe y x = true → x = y := by
  induction x with
  | nil =>
    intro y h1 _
    cases y with
    | nil => rfl
    | cons b bs => simp [charsLe] at *
  | cons a as ih =>
    intro y hxy hyx
    cases y with
    | nil => simp [charsLe] at hxy
    | cons b bs =>
      simp only [charsLe] at hxy hyx
      rcases Nat.lt_trichotomy a.toNat b.toNat with h | h | h
      · simp [h, Nat.lt_asymm h] at hyx
      · have h1 : ¬ a.toNat < b.toNat := by omega
        have h2 : ¬ b.toNat < a.toNat := by omega
        simp only [h1, h2, if_false, ite_false, if_neg, not_false_iff] at hxy hyx
        have hab : a = b := Char.ext (UInt32.ext h)
        rw [hab, ih bs hxy hyx]
      · simp [h, Nat.lt_asymm h] at hxy

instance : IsTotal String strLeProp := ⟨fun a b => charsLe_total a.data b.data⟩

instance : IsTrans String strLeProp :=
  ⟨fun a b c hab hbc => charsLe_trans a.data b.data c.data hab hbc⟩

instance : IsAntisymm String strLeProp :=
  ⟨fun a b hab hba => String.ext (charsLe_antisymm a.data b.data hab hba)⟩

theorem fmtConnections_eq_specSummarize (conns : List Connection) (b : Bool) :
    fmtConnections conns b = specSummarize conns b := by
  have hcount : ∀ pop : String,
      ((conns.filter fun c => !c.isPendingReconnect || b).map Connection.coloName).count pop
        = (conns.filter fun c => c.coloName == pop && (!c.isPendingReconnect || b)).length := by
    intro pop
    rw [List.count_eq_countP, List.countP_map, List.countP_filter,
      List.countP_eq_length_filter]
    rfl
  have hperm :
      ((conns.filter fun c => !c.isPendingReconnect || b).map Connection.coloName).dedup.Perm
        (((conns.map Connection.coloName).dedup).filter fun pop =>
          (conns.filter fun c =>
            c.coloName == pop && (!c.isPendingReconnect || b)).length != 0) := by
    rw [List.perm_ext_iff_of_nodup (List.nodup_dedup _) ((List.nodup_dedup _).filter _)]
    intro pop
    simp only [List.mem_dedup, List.mem_filter, List.mem_map, bne_iff_ne, ne_eq,
      ← List.countP_eq_length_filter, ← Nat.pos_iff_ne_zero, List.countP_pos_iff,
      Bool.and_eq_true, beq_iff_eq]
    constructor
    · rintro ⟨c, ⟨hc, hq⟩, rfl⟩
      exact ⟨⟨c, hc, rfl⟩, c, hc, rfl, hq⟩
    · rintro ⟨_, c, hc, rfl, hq⟩
      exact ⟨c, ⟨hc, hq⟩, rfl⟩
  have hsort :
      List.insertionSort strLeProp
          ((conns.filter fun c => !c.isPendingReconnect || b).map Connection.coloName).dedup
        = List.insertionSort strLeProp
          (((conns.map Connection.coloName).dedup).filter fun pop =>
            (conns.filter fun c =>
              c.coloName == pop && (!c.isPendingReconnect || b)).length != 0) :=
    List.eq_of_perm_of_sorted
      ((List.perm_insertionSort _ _).trans (hperm.trans (List.perm_insertionSort _ _).symm))
      (List.sorted_insertionSort _ _) (List.sorted_insertionSort _ _)
  simp only [fmtConnections, specSummarize, hsort, hcount]

/-- Claim C4: the summary counts, per point of presence, the connections that
are not pending reconnect (all connections when the flag is set), lists the
points of presence with non-zero count sorted ascending as "<count>x<name>"
joined with ", "; excluded-only or empty input yields the empty string; and
the concrete examples of the spec hold. -/
theorem fmtConnections_c4 :
    (∀ (conns : List Connection) (b : Bool), fmtConnections conns b = specSummarize conns b)
  ∧ (∀ (conns : List Connection) (b : Bool),
      (conns.filter fun c => !c.isPendingReconnect || b) = [] → fmtConnections conns b = "")
  ∧ fmtConnections [⟨"LAX", false⟩, ⟨"LAX", false⟩, ⟨"JFK", true⟩] false = "2xLAX"
  ∧ fmtConnections [⟨"LAX", false⟩, ⟨"LAX", false⟩, ⟨"JFK", true⟩] true = "1xJFK, 2xLAX"
  ∧ fmtConnections [] false = "" := by
  refine ⟨fmtConnections_eq_specSummarize, ?_, by decide, by decide, by decide⟩
  intro conns b h
  simp only [fmtConnections, h]
  rfl

/-- Claim C10: fmtConnections is invariant under permutation of the input
connection list: the output depends only on the multiset of
(point of presence, pending) pairs. -/
theorem fmtConnections_perm_invariant (l1 l2 : List Connection) (b : Bool)
    (h : l1.Perm l2) : fmtConnections l1 b = fmtConnections l2 b := by
  have hm := (h.filter (fun c => !c.isPendingReconnect || b)).map Connection.coloName
  have hsort :
      List.insertionSort strLeProp
          ((l1.filter fun c => !c.isPendingReconnect || b).map Connection.coloName).dedup
        = List.insertionSort strLeProp
          ((l2.filter fun c => !c.isPendingReconnect || b).map Connection.coloName).dedup :=
    List.eq_of_perm_of_sorted
      ((List.perm_insertionSort _ _).trans (hm.dedup.trans (List.perm_insertionSort _ _).symm))
      (List.sorted_insertionSort _ _) (List.sorted_insertionSort _ _)
  simp only [fmtConnections, hsort, hm.count_eq]

/-- The permutation invariance applied at a concrete pair of lists. -/
theorem fmtConnections_perm_invariant_witness :
    fmtConnections [⟨"AMS", false⟩, ⟨"SJC", true⟩] false
      = fmtConnections [⟨"SJC", true⟩, ⟨"AMS", false⟩] false :=
  fmtConnections_perm_invariant _ _ false (List.Perm.swap _ _ _)

theorem isNameHeadChar_iff (c : Char) :
    isNameHeadChar c = true ↔ (c.isAlphanum = true ∨ c = '_') := by
  unfold isNameHeadChar Char.isAlphanum Char.isAlpha Char.isDigit Char.isUpper Char.isLower
  simp only [Bool.or_eq_true, Bool.and_eq_true, decide_eq_true_eq, beq_iff_eq]
  change ((c = '_' ∨ (97 ≤ c.toNat ∧ c.toNat ≤ 122)) ∨ (65 ≤ c.toNat ∧ c.toNat ≤ 90))
        ∨ (48 ≤ c.toNat ∧ c.toNat ≤ 57)
      ↔ (((65 ≤ c.toNat ∧ c.toNat ≤ 90) ∨ (97 ≤ c.toNat ∧ c.toNat ≤ 122))
        ∨ (48 ≤ c.toNat ∧ c.toNat ≤ 57)) ∨ c = '_'
  tauto

theorem isNameRestChar_iff (c : Char) :
    isNameRestChar c = true ↔ (c.isAlphanum = true ∨ c = '_' ∨ c = '.' ∨ c = '-') := by
  unfold isNameRestChar Char.isAlphanum Char.isAlpha Char.isDigit Char.isUpper Char.isLower
  simp only [Bool.or_eq_true, Bool.and_eq_true, decide_eq_true_eq, beq_iff_eq]
  change ((((c = '-' ∨ c = '_') ∨ c = '.') ∨ (97 ≤ c.toNat ∧ c.toNat ≤ 122))
        ∨ (65 ≤ c.toNat ∧ c.toNat ≤ 90)) ∨ (48 ≤ c.toNat ∧ c.toNat ≤ 57)
      ↔ (((65 ≤ c.toNat ∧ c.toNat ≤ 90) ∨ (97 ≤ c.toNat ∧ c.toNat ≤ 122))
        ∨ (48 ≤ c.toNat ∧ c.toNat ≤ 57)) ∨ c = '_' ∨ c = '.' ∨ c = '-'
  tauto

/-- Claim C7: validateName accepts exactly the strings whose first character
is alphanumeric or underscore and whose remaining characters are
alphanumeric, underscore, dot or hyphen (the anchored pattern
with head class [_a-zA-Z0-9] and remainder class [-_.a-zA-Z0-9]); the empty
string is rejected, "abc-123.def" is accepted and "-bad" is rejected. -/
theorem validateName_c7 :
    (∀ s : String, validateName s = true ↔
      ∃ c cs, s.data = c :: cs
        ∧ (c.isAlphanum = true ∨ c = '_')
        ∧ ∀ d ∈ cs, (d.isAlphanum = true ∨ d = '_' ∨ d = '.' ∨ d = '-'))
  ∧ validateName "abc-123.def" = true
  ∧ validateName "-bad" = false
  ∧ validateName "" = false := by
  refine ⟨?_, by decide, by decide, by decide⟩
  intro s
  cases hd : s.data with
  | nil => simp [validateName, hd]
  | cons c cs =>
    simp only [validateName, hd, Bool.and_eq_true, List.all_eq_true,
      isNameHeadChar_iff, isNameRestChar_iff, List.cons.injEq]
    constructor
    · rintro ⟨h1, h2⟩
      exact ⟨c, cs, ⟨rfl, rfl⟩, h1, h2⟩
    · rintro ⟨c2, cs2, ⟨rfl, rfl⟩, h1, h2⟩
      exact ⟨h1, h2⟩

set_option maxRecDepth 4000 in
/-- Claim C6: validateHostname returns true exactly when the strict
internationalized-domain conversion succeeds and the resulting ASCII form
satisfies validateName; a conversion error (in particular a DNS length
violation) yields false rather than an exception, so an over-long hostname is
rejected while a plain ASCII hostname matching the name rules is accepted. -/
theorem validateHostname_c6 :
    (∀ s : String, validateHostname s = true ↔
      ∃ puny, idnaToASCII s = Except.ok puny ∧ validateName puny = true)
  ∧ validateHostname longName304 = false
  ∧ validateName longName304 = true
  ∧ validateHostname "abc" = true := by
  refine ⟨?_, by decide, by decide, by decide⟩
  intro s
  cases h : idnaToASCII s with
  | ok puny => simp [validateHostname, h]
  | error e => simp [validateHostname, h]

set_option maxRecDepth 8000 in
/-- Claim C3 counterexample: a 304-character load balancer name passes
validateName, and the pool name "p" passes validateName and is non-empty,
yet lbRouteFromArg rejects the pair: the source checks the load balancer
name with validateHostname, which enforces the DNS length limit. -/
theorem lbRouteFromArg_name_cex :
    longName304 ≠ "" ∧ validateName longName304 = true
  ∧ ("p" : String) ≠ "" ∧ validateName "p" = true
  ∧ lbRouteFromArg ["lb", "mytunnel", longName304, "p"]
      = Except.error (CmdError.invalid (longName304 ++ " is not a valid load balancer name")) := by
  exact ⟨by decide, by decide, by decide, by decide, by decide⟩

/-- Claim C3 (amended): with four arguments, lbRouteFromArg succeeds — with
the load balancer route carrying both names — exactly when the load balancer
name is non-empty and satisfies validateHostname and the pool name is
non-empty and satisfies validateName; a non-empty load balancer name failing
validateHostname yields the invalid-load-balancer-name error, and a
non-empty pool name failing validateName yields the invalid-pool-name
error. -/
theorem lbRouteFromArg_c3 (a0 a1 lbName lbPool : String) :
    (lbRouteFromArg [a0, a1, lbName, lbPool] = Except.ok (Route.lb lbName lbPool)
      ↔ lbName ≠ "" ∧ validateHostname lbName = true
        ∧ lbPool ≠ "" ∧ validateName lbPool = true)
  ∧ (lbName ≠ "" → validateHostname lbName = false →
      lbRouteFromArg [a0, a1, lbName, lbPool]
        = Except.error (CmdError.invalid (lbName ++ " is not a valid load balancer name")))
  ∧ (lbName ≠ "" → validateHostname lbName = true → lbPool ≠ "" →
      validateName lbPool = false →
      lbRouteFromArg [a0, a1, lbName, lbPool]
        = Except.error (CmdError.invalid (lbPool ++ " is not a valid pool name"))) := by
  refine ⟨?_, ?_, ?_⟩
  · by_cases h0 : lbName = ""
    · subst h0; simp [lbRouteFromArg, argsGet]
    · by_cases h1 : validateHostname lbName = true
      · by_cases h2 : lbPool = ""
        · subst h2; simp [lbRouteFromArg, argsGet, h0, h1]
        · by_cases h3 : validateName lbPool = true
          · simp [lbRouteFromArg, argsGet, h0, h1, h2, h3]
          · simp [lbRouteFromArg, argsGet, h0, h1, h2,
              Bool.eq_false_iff.mpr h3, h3]
      · simp [lbRouteFromArg, argsGet, h0, Bool.eq_false_iff.mpr h1, h1]
  · intro h0 h1
    simp [lbRouteFromArg, argsGet, h0, h1]
  · intro h0 h1 h2 h3
    simp [lbRouteFromArg, argsGet, h0, h1, h2, h3]

/-- Claim C8 counterexample: with three well-formed arguments and the empty
hostname, dnsRouteFromArg fails with a usage error, not with the
invalid-hostname validation error. -/
theorem dnsRouteFromArg_empty_cex :
    dnsRouteFromArg ["dns", "mytunnel", ""]
      = Except.error (CmdError.usage "The third argument should be the hostname")
  ∧ isValidationErr (dnsRouteFromArg ["dns", "mytunnel", ""]) = false :=
  ⟨rfl, rfl⟩

/-- Claim C8 (amended): with three arguments, dnsRouteFromArg returns the DNS
route carrying the hostname exactly when the hostname is non-empty and
satisfies validateHostname; a non-empty hostname failing validateHostname
fails with the invalid-hostname validation error, and the empty hostname
fails with a usage error. -/
theorem dnsRouteFromArg_c8 (a0 a1 h : String) :
    (dnsRouteFromArg [a0, a1, h] = Except.ok (Route.dns h)
      ↔ h ≠ "" ∧ validateHostname h = true)
  ∧ (h ≠ "" → validateHostname h = false →
      dnsRouteFromArg [a0, a1, h]
        = Except.error (CmdError.invalid (h ++ " is not a valid hostname")))
  ∧ dnsRouteFromArg [a0, a1, ""]
      = Except.error (CmdError.usage "The third argument should be the hostname") := by
  refine ⟨?_, ?_, rfl⟩
  · by_cases h0 : h = ""
    · subst h0; simp [dnsRouteFromArg, argsGet]
    · by_cases h1 : validateHostname h = true
      · simp [dnsRouteFromArg, argsGet, h0, h1]
      · simp [dnsRouteFromArg, argsGet, h0, Bool.eq_false_iff.mpr h1, h1]
  · intro h0 h1
    simp [dnsRouteFromArg, argsGet, h0, h1]

/-- Claim C5: renderOutput succeeds exactly for the case-sensitive format
strings "json" and "yaml"; any other format — for example "xml" — fails with
the unknown-format error, and successful JSON rendering carries the
two-space indent configuration. -/
theorem renderOutput_c5 :
    (∀ (α : Type) (format : String) (v : α),
        (renderOutput format v).isOk = true ↔ (format = "json" ∨ format = "yaml"))
  ∧ (∀ (α : Type) (v : α),
        renderOutput "json" v = Except.ok (RenderedOutput.json "" "  " v))
  ∧ (∀ (α : Type) (v : α),
        renderOutput "xml" v = Except.error ("Unknown output format \x27xml\x27")) := by
  refine ⟨?_, fun α v => rfl, fun α v => rfl⟩
  intro α format v
  by_cases h1 : format = "json"
  · subst h1; simp [renderOutput, Except.isOk, Except.toBool]
  · by_cases h2 : format = "yaml"
    · subst h2; simp [renderOutput, Except.isOk, Except.toBool, h1]
    · simp [renderOutput, h1, h2, Except.isOk, Except.toBool]

/-- Claim C9: generateTunnelSecret always returns a 32-byte buffer — in
particular every successful call returns exactly 32 bytes of secret material
— and it reports an error exactly when the secure random source fails. -/
theorem generateTunnelSecret_c9 (src : RandSource) :
    (generateTunnelSecret src).1.length = 32
  ∧ ((generateTunnelSecret src).2.isSome ↔ src.failure.isSome) := by
  cases h : src.failure with
  | none => simp [generateTunnelSecret, randRead, h]
  | some e => simp [generateTunnelSecret, randRead, h]

/-- Claim C9 at a concrete entropy source. -/
theorem generateTunnelSecret_c9_witness :
    (generateTunnelSecret { byteAt := fun i => i % 256, failure := none }).1.length = 32
  ∧ ((generateTunnelSecret { byteAt := fun i => i % 256, failure := none }).2.isSome
      ↔ (Option.none : Option String).isSome) :=
  generateTunnelSecret_c9 { byteAt := fun i => i % 256, failure := none }

/-- Claim C1: at a concrete successful persistence the credential file path
is "<dirname(originCertPath)>/<tunnelID>.json", but the permission passed to
the write is the decimal literal 400 = octal 0620: its non-owner bits
(perm % 64) are not zero — the group-write bit is set — so the file is not
owner-only, unlike octal 0400 whose non-owner bits are zero. -/
theorem writeTunnelCredentials_c1 :
    writeTunnelCredentials "a1b2c3d4" "acct" "/home/u/.cloudflared/cert.pem"
        (List.replicate 32 7) "/home/u"
      = Except.ok
          { path := "/home/u/.cloudflared/a1b2c3d4.json"
            auth := { accountTag := "acct", tunnelSecret := List.replicate 32 7 }
            perm := 400 }
  ∧ (400 : Nat) % 64 ≠ 0 ∧ (0o400 : Nat) % 64 = 0 ∧ (400 : Nat) ≠ 0o400 := by
  exact ⟨by decide, by decide, by decide, by decide⟩

/-- Claim C2: a list invocation that supplies --when (the only timestamp
flag the list command defines) never yields a byExistedAt constraint: the
source looks up the undefined flag name "time", whose value is empty, so for
every timestamp value the built filter is exactly [noDeleted]. -/
theorem listBuildFilter_c2 :
    (∀ t : String,
      listBuildFilter { bools := [], strs := [], timestamps := [("when", t)] }
        = Except.ok [FilterConstraint.noDeleted])
  ∧ listBuildFilter
      { bools := [], strs := [], timestamps := [("when", "2021-01-01T00:00:00Z")] }
      = Except.ok [FilterConstraint.noDeleted] :=
  ⟨fun _ => rfl, rfl⟩
